import Mathlib

/-!
Formal model of the `translation-agent` pipeline.

The definitions below are shallow embeddings of the Python source files
`src/translation_agent/agents.py`, `src/translation_agent/prompts.py` and
`src/translation_agent/splitters.py`.  Python exceptions are modelled by the
`PyError` type together with `Except PyError`-valued functions; Python lists
become `List`, dicts become association lists (`List (String × String)`),
and the thread-pool fan-out/fan-in of the stage methods is modelled by an
arbitrary completion order (a permutation of the dispatch order) together
with a per-chunk outcome function.
-/

/-- Python exception values that the modelled code can raise.
`stageDependencyError` does not correspond to any class in the source; it is
modelled from the spec (§7 error taxonomy), which postulates a
`StageDependencyError` carrying the missing unit indices.  No code path
constructs it. -/
inductive PyError where
  | valueError (msg : String)
  | valueErrorMissingParams (missing : List String)
  | indexError
  | keyError (k : String)
  | zeroDivisionError
  | exception (msg : String)
  | stageDependencyError (missing : List Nat)
deriving DecidableEq, Repr

deriving instance DecidableEq for Except

/-- `true` iff the computation did not raise. -/
def is_ok {ε α : Type} : Except ε α → Bool
  | .ok _ => true
  | .error _ => false

/-- Sequential effectful map over a list, propagating the first raised
exception, as a Python `for`-loop or comprehension does. -/
def map_except {ε α β : Type} (f : α → Except ε β) : List α → Except ε (List β)
  | [] => .ok []
  | a :: rest => do
    let b ← f a
    let bs ← map_except f rest
    .ok (b :: bs)

/-! ## Stage executor fan-in (`agents.py`, `translate`/`reflect`/`improve`)

Each of the three stage methods submits `query_model` for every
`idx in range(num_chunks)`, collects `(chunk_id, completion)` pairs in
`as_completed` order (appending successes to `output`, printing failures),
and finally re-orders: `output = [x[1] for x in sorted(output, key=lambda x: x[0])]`.
`stage_output order f` models that fan-in for a completion order `order`
(a permutation of `range num_chunks`) and per-chunk outcomes `f`. -/

/-- Comparison key used by `sorted(output, key=lambda x: x[0])`. -/
def keyLE (a b : Nat × String) : Prop := a.1 ≤ b.1

/-- Strict version of the sort key; used to show uniqueness of the sorted
result, since chunk indices are pairwise distinct. -/
def keyLT (a b : Nat × String) : Prop := a.1 < b.1

instance : DecidableRel keyLE := fun a b => inferInstanceAs (Decidable (a.1 ≤ b.1))

instance : IsTotal (Nat × String) keyLE := ⟨fun a b => Nat.le_total a.1 b.1⟩

instance : IsTrans (Nat × String) keyLE := ⟨fun _ _ _ h1 h2 => Nat.le_trans h1 h2⟩

instance : IsTrans (Nat × String) keyLT := ⟨fun _ _ _ h1 h2 => Nat.lt_trans h1 h2⟩

instance : IsAntisymm (Nat × String) keyLT := ⟨fun _ _ h1 h2 => absurd h2 (Nat.lt_asymm h1)⟩

/-- `sorted(output, key=lambda x: x[0])`: stable sort of the collected
`(chunk index, completion)` pairs by chunk index. -/
def sort_by_index (l : List (Nat × String)) : List (Nat × String) :=
  List.insertionSort keyLE l

/-- The `(chunk_id, completion)` pairs appended to `output` in completion
order: failed futures are skipped (their exception is caught and printed). -/
def success_pairs (order : List Nat) (f : Nat → Except PyError String) :
    List (Nat × String) :=
  order.filterMap fun i =>
    match f i with
    | .ok r => some (i, r)
    | .error _ => none

/-- The value a stage method returns:
`[x[1] for x in sorted(output, key=lambda x: x[0])]`. -/
def stage_output (order : List Nat) (f : Nat → Except PyError String) : List String :=
  (sort_by_index (success_pairs order f)).map Prod.snd

/-- The chunk indices whose futures raised, in completion order (the code
reports each with `print(f"Error reflecting on chunk {idx}: {e}")`). -/
def failed_indices (order : List Nat) (f : Nat → Except PyError String) : List Nat :=
  order.filter fun i => !(is_ok (f i))

theorem mem_success_pairs {order : List Nat} {f : Nat → Except PyError String}
    {p : Nat × String} (h : p ∈ success_pairs order f) : p.1 ∈ order := by
  induction order with
  | nil => simp [success_pairs] at h
  | cons i rest ih =>
    simp only [success_pairs, List.filterMap_cons] at h
    cases hfi : f i with
    | ok r =>
      rw [hfi] at h
      rcases List.mem_cons.mp h with h1 | h2
      · subst h1; exact List.mem_cons_self _ _
      · exact List.mem_cons_of_mem _ (ih h2)
    | error e =>
      rw [hfi] at h
      exact List.mem_cons_of_mem _ (ih h)

theorem success_pairs_pairwise {l : List Nat} (f : Nat → Except PyError String)
    (h : l.Pairwise (· < ·)) : (success_pairs l f).Pairwise keyLT := by
  induction l with
  | nil => simp [success_pairs]
  | cons i rest ih =>
    rcases List.pairwise_cons.mp h with ⟨hlt, hrest⟩
    simp only [success_pairs, List.filterMap_cons]
    cases hfi : f i with
    | ok r =>
      refine List.pairwise_cons.mpr ⟨?_, ih hrest⟩
      intro p hp
      exact hlt p.1 (mem_success_pairs hp)
    | error e => exact ih hrest

theorem pairwise_and {α : Type} {R S : α → α → Prop} :
    ∀ {l : List α}, l.Pairwise R → l.Pairwise S →
      l.Pairwise fun a b => R a b ∧ S a b := by
  intro l
  induction l with
  | nil => intro _ _; exact List.Pairwise.nil
  | cons a rest ih =>
    intro hR hS
    rcases List.pairwise_cons.mp hR with ⟨hRa, hRrest⟩
    rcases List.pairwise_cons.mp hS with ⟨hSa, hSrest⟩
    exact List.pairwise_cons.mpr ⟨fun b hb => ⟨hRa b hb, hSa b hb⟩, ih hRrest hSrest⟩

/-- Sorting the pairs collected in any completion order `order` recovers the
pairs of the canonical (index-sorted) dispatch order `l`. -/
theorem sort_success_pairs_eq {order l : List Nat} (f : Nat → Except PyError String)
    (hperm : order.Perm l) (hsorted : l.Pairwise (· < ·)) :
    sort_by_index (success_pairs order f) = success_pairs l f := by
  have hperm2 : List.Perm (success_pairs order f) (success_pairs l f) := by
    unfold success_pairs
    exact hperm.filterMap _
  have hperm3 : List.Perm (sort_by_index (success_pairs order f)) (success_pairs l f) :=
    (List.perm_insertionSort keyLE (success_pairs order f)).trans hperm2
  have hcanon : (success_pairs l f).Pairwise keyLT := success_pairs_pairwise f hsorted
  have hsortLE : (sort_by_index (success_pairs order f)).Pairwise keyLE :=
    List.sorted_insertionSort keyLE (success_pairs order f)
  have hne_canon : (success_pairs l f).Pairwise fun a b => a.1 ≠ b.1 :=
    hcanon.imp fun h => Nat.ne_of_lt h
  have hne_sort : (sort_by_index (success_pairs order f)).Pairwise fun a b => a.1 ≠ b.1 :=
    (hperm3.pairwise_iff fun hab => Ne.symm hab).mpr hne_canon
  have hsortLT : (sort_by_index (success_pairs order f)).Pairwise keyLT := by
    have := pairwise_and hsortLE hne_sort
    exact this.imp fun h => Nat.lt_of_le_of_ne h.1 h.2
  exact List.eq_of_perm_of_sorted hperm3 hsortLT hcanon

theorem success_pairs_all_ok {l : List Nat} {f : Nat → Except PyError String}
    {g : Nat → String} (h : ∀ i ∈ l, f i = Except.ok (g i)) :
    success_pairs l f = l.map fun i => (i, g i) := by
  induction l with
  | nil => rfl
  | cons i rest ih =>
    simp only [success_pairs, List.filterMap_cons, h i (List.mem_cons_self _ _),
      List.map_cons]
    rw [show (rest.filterMap fun i => match f i with
        | .ok r => some (i, r) | .error _ => none) = success_pairs rest f from rfl]
    rw [ih fun j hj => h j (List.mem_cons_of_mem _ hj)]

/-- C1: for every buffer of `N` source chunks and every completion order of
the worker pool, a stage method (`translate`, `reflect`, `improve`) returns
the list whose `i`-th element is the completion produced for chunk `i`;
equivalently, its output equals the output of a strictly sequential
dispatch-and-complete in index order. -/
theorem stage_output_ordered (N : Nat) (order : List Nat)
    (f : Nat → Except PyError String) (g : Nat → String)
    (hperm : order.Perm (List.range N))
    (hok : ∀ i ∈ List.range N, f i = Except.ok (g i)) :
    stage_output order f = (List.range N).map g ∧
    stage_output order f = stage_output (List.range N) f := by
  have key : sort_by_index (success_pairs order f) = success_pairs (List.range N) f :=
    sort_success_pairs_eq f hperm (List.pairwise_lt_range N)
  have key2 : sort_by_index (success_pairs (List.range N) f) = success_pairs (List.range N) f :=
    sort_success_pairs_eq f (List.Perm.refl _) (List.pairwise_lt_range N)
  constructor
  · unfold stage_output
    rw [key, success_pairs_all_ok hok, List.map_map]
    rfl
  · unfold stage_output
    rw [key, key2]

/-- Completion function used by concrete instantiations: three chunks. -/
def wg : Nat → String := fun i => if i == 0 then "alpha" else if i == 1 then "beta" else "gamma"

/-- All three chunks complete successfully. -/
def wf : Nat → Except PyError String := fun i => Except.ok (wg i)

theorem stage_output_ordered_witness :
    stage_output [2, 0, 1] wf = (List.range 3).map wg ∧
    stage_output [2, 0, 1] wf = stage_output (List.range 3) wf :=
  stage_output_ordered 3 [2, 0, 1] wf wg (by decide) (by decide)

/-! ## C3: partial-failure isolation -/

theorem success_pairs_one_fail {l : List Nat} {f : Nat → Except PyError String}
    {g : Nat → String} {k : Nat} {e : PyError} (hfk : f k = Except.error e)
    (hok : ∀ i ∈ l, i ≠ k → f i = Except.ok (g i)) :
    success_pairs l f = (l.filter fun i => i != k).map fun i => (i, g i) := by
  induction l with
  | nil => rfl
  | cons i rest ih =>
    have htail : success_pairs rest f = (rest.filter fun i => i != k).map fun i => (i, g i) :=
      ih fun j hj hjk => hok j (List.mem_cons_of_mem _ hj) hjk
    by_cases hik : i = k
    · subst hik
      simp only [success_pairs, List.filterMap_cons, hfk, List.filter_cons,
        bne_self_eq_false, cond_false]
      exact htail
    · rw [List.filter_cons_of_pos]
      · simp only [success_pairs, List.filterMap_cons,
          hok i (List.mem_cons_self _ _) hik, List.map_cons]
        rw [show (rest.filterMap fun i => match f i with
            | .ok r => some (i, r) | .error _ => none) = success_pairs rest f from rfl]
        rw [htail]
      · simp [bne_iff_ne, hik]

theorem range_filter_eq_singleton {N k : Nat} (hk : k < N) :
    ((List.range N).filter fun i => i == k) = [k] := by
  induction N with
  | zero => omega
  | succ n ih =>
    rw [List.range_succ, List.filter_append]
    by_cases hkn : k = n
    · subst hkn
      have h1 : ((List.range k).filter fun i => i == k) = [] := by
        rw [List.filter_eq_nil_iff]
        intro a ha
        have := List.mem_range.mp ha
        simp only [beq_iff_eq]
        omega
      simp [h1]
    · have hk2 : k < n := by omega
      rw [ih hk2]
      have h2 : ([n].filter fun i => i == k) = [] := by
        simp [List.filter_cons, Ne.symm hkn]
      rw [h2, List.append_nil]

/-- C3: if exactly the completion for chunk `k` raises and the other `N - 1`
chunks succeed, the stage method returns the `N - 1` successful completions
in index order, reports `k` (and only `k`) as the failed index, and returns
normally instead of raising for the whole batch (the model is a total
function, so its mere evaluation is the non-raising behaviour). -/
theorem stage_output_partial_failure (N k : Nat) (order : List Nat)
    (f : Nat → Except PyError String) (g : Nat → String) (e : PyError)
    (hperm : order.Perm (List.range N)) (hk : k < N)
    (hfk : f k = Except.error e)
    (hok : ∀ i ∈ List.range N, i ≠ k → f i = Except.ok (g i)) :
    stage_output order f = ((List.range N).filter fun i => i != k).map g ∧
    (stage_output order f).length = N - 1 ∧
    failed_indices order f = [k] := by
  have key : sort_by_index (success_pairs order f) = success_pairs (List.range N) f :=
    sort_success_pairs_eq f hperm (List.pairwise_lt_range N)
  have hout : stage_output order f = ((List.range N).filter fun i => i != k).map g := by
    unfold stage_output
    rw [key, success_pairs_one_fail hfk hok, List.map_map]
    rfl
  refine ⟨hout, ?_, ?_⟩
  · rw [hout, List.length_map]
    have hsplit :
        List.Perm (((List.range N).filter fun i => i == k) ++
          ((List.range N).filter fun i => !(i == k))) (List.range N) :=
      List.filter_append_perm _ _
    have hlen := hsplit.length_eq
    rw [List.length_append, range_filter_eq_singleton hk, List.length_range] at hlen
    have hfeq : ((List.range N).filter fun i => !(i == k)) =
        ((List.range N).filter fun i => i != k) := by
      apply List.filter_congr
      intro a _
      rfl
    rw [hfeq] at hlen
    simp at hlen
    omega
  · unfold failed_indices
    have hco : (order.filter fun i => !(is_ok (f i))) = order.filter fun i => i == k := by
      apply List.filter_congr
      intro a ha
      have haN : a ∈ List.range N := hperm.mem_iff.mp ha
      by_cases hak : a = k
      · subst hak
        simp [hfk, is_ok]
      · simp [hok a haN hak, is_ok, hak]
    rw [hco]
    have : List.Perm (order.filter fun i => i == k)
        ((List.range N).filter fun i => i == k) := hperm.filter _
    rw [range_filter_eq_singleton hk] at this
    exact List.perm_singleton.mp this

/-- Outcomes for the C3 instantiation: chunk 1 of 3 raises at the completion
boundary, chunks 0 and 2 succeed. -/
def wf_fail : Nat → Except PyError String := fun i =>
  if i == 1 then Except.error (PyError.exception "connection reset") else Except.ok (wg i)

theorem stage_output_partial_failure_witness :
    stage_output [1, 2, 0] wf_fail = ((List.range 3).filter fun i => i != 1).map wg ∧
    (stage_output [1, 2, 0] wf_fail).length = 3 - 1 ∧
    failed_indices [1, 2, 0] wf_fail = [1] :=
  stage_output_partial_failure 3 1 [1, 2, 0] wf_fail wg
    (PyError.exception "connection reset") (by decide) (by decide) (by decide) (by decide)

/-! ## C2: running `reflect`/`improve` after a partial prior stage

`reflect` builds, eagerly in its submission comprehension, the binding
`"translated_chunk": self._buffer["translated_chunks"][idx]` for every
`idx in range(self._buffer["num_chunks"])`; `improve` additionally builds
`"reflection_chunk": self._buffer["reflection_chunks"][idx]`.  When a prior
stage ended partial its output list is shorter than `num_chunks`, so the
first out-of-range access raises `IndexError` inside the comprehension and
propagates out of the stage method.  `reflect_bindings` / `improve_bindings`
model exactly these per-index accesses. -/

/-- The prior-stage list accesses performed by `reflect` (agents.py lines
282-297) for each chunk index. -/
def reflect_bindings (translated_chunks : List String) (num_chunks : Nat) :
    Except PyError (List String) :=
  map_except (fun idx =>
    match translated_chunks.get? idx with
    | some s => Except.ok s
    | none => Except.error PyError.indexError) (List.range num_chunks)

/-- The prior-stage list accesses performed by `improve` (agents.py lines
317-335) for each chunk index: first `translated_chunks[idx]`, then
`reflection_chunks[idx]`.  Both buffer keys are assumed present, which is
the reachable situation inside `agentic_translate`: a stage that ends
partial still returns its shortened output list and the orchestrator stores
it before the next stage runs (a key can only be absent after a stage
*raised*, in which case the run already aborted and `improve` is never
invoked; a direct call in that state would raise `KeyError` at the dict
lookup instead). -/
def improve_bindings (translated_chunks reflection_chunks : List String)
    (num_chunks : Nat) : Except PyError (List (String × String)) :=
  map_except (fun idx =>
    match translated_chunks.get? idx with
    | none => Except.error PyError.indexError
    | some t =>
      match reflection_chunks.get? idx with
      | none => Except.error PyError.indexError
      | some r => Except.ok (t, r)) (List.range num_chunks)

/-- Recognises the spec's postulated `StageDependencyError`. -/
def is_stage_dependency_error {α : Type} : Except PyError α → Bool
  | .error (.stageDependencyError _) => true
  | _ => false

theorem map_except_fixed_error {α β : Type} {f : α → Except PyError β} {e : PyError} :
    ∀ {l : List α}, (∀ a ∈ l, ∀ e2, f a = Except.error e2 → e2 = e) →
      (∃ a ∈ l, is_ok (f a) = false) → map_except f l = Except.error e := by
  intro l
  induction l with
  | nil =>
    intro _ hex
    rcases hex with ⟨a, ha, _⟩
    exact absurd ha (List.not_mem_nil a)
  | cons a rest ih =>
    intro hall hex
    cases hfa : f a with
    | error e2 =>
      have he2 : e2 = e := hall a (List.mem_cons_self _ _) e2 hfa
      subst he2
      simp only [map_except, hfa]
      rfl
    | ok b =>
      have hex2 : ∃ x ∈ rest, is_ok (f x) = false := by
        rcases hex with ⟨x, hx, hxf⟩
        rcases List.mem_cons.mp hx with h1 | h2
        · subst h1; rw [hfa] at hxf; simp [is_ok] at hxf
        · exact ⟨x, h2, hxf⟩
      have htail := ih (fun x hx => hall x (List.mem_cons_of_mem _ hx)) hex2
      simp only [map_except, hfa, htail]
      rfl

/-- C2 counterexample: with 2 units whose translation stage ended partial
(only unit 0 translated; unit 1 failed), invoking `reflect` raises
`IndexError`, not the `StageDependencyError` (naming the missing indices)
that the claim describes. -/
theorem reflect_partial_counterexample :
    reflect_bindings ["translation of chunk 0"] 2 = Except.error PyError.indexError ∧
    is_stage_dependency_error (reflect_bindings ["translation of chunk 0"] 2) = false := by
  constructor
  · rfl
  · rfl

/-- C2 (amended): when the prior stage ended partial, the next stage fails
fast with an `IndexError` raised while building the bindings for the first
missing unit index, rather than silently feeding empty or default bindings
for the missing units — and the error is a plain `IndexError`, not a
`StageDependencyError` naming the missing indices.  The two reachable
scenarios inside `agentic_translate` are covered: `reflect` after a partial
`translate` (`translated_chunks` covers fewer than `num_chunks` units), and
`improve` after a fully populated `translate` but a partial `reflect`
(`reflection_chunks` covers fewer than `num_chunks` units; both buffer keys
exist, since a partial stage still returns its shortened list and the
orchestrator stores it before invoking the next stage). -/
theorem next_stage_partial_raises (translated_chunks reflection_chunks : List String)
    (num_chunks : Nat) :
    (translated_chunks.length < num_chunks →
      reflect_bindings translated_chunks num_chunks = Except.error PyError.indexError) ∧
    (translated_chunks.length = num_chunks → reflection_chunks.length < num_chunks →
      improve_bindings translated_chunks reflection_chunks num_chunks =
        Except.error PyError.indexError) := by
  constructor
  · intro hshort
    have hmem : translated_chunks.length ∈ List.range num_chunks :=
      List.mem_range.mpr hshort
    have hget : translated_chunks.get? translated_chunks.length = none :=
      List.get?_eq_none.mpr (Nat.le_refl _)
    apply map_except_fixed_error
    · intro a _ e2 he2
      cases hga : translated_chunks.get? a with
      | some s => rw [hga] at he2; cases he2
      | none => rw [hga] at he2; cases he2; rfl
    · refine ⟨translated_chunks.length, hmem, ?_⟩
      rw [hget]
      rfl
  · intro hfull hshort
    have hmem : reflection_chunks.length ∈ List.range num_chunks :=
      List.mem_range.mpr hshort
    obtain ⟨t, hgt⟩ :
        ∃ t, translated_chunks.get? reflection_chunks.length = some t := by
      have hlt : reflection_chunks.length < translated_chunks.length := by omega
      exact ⟨_, List.get?_eq_get hlt⟩
    have hgr : reflection_chunks.get? reflection_chunks.length = none :=
      List.get?_eq_none.mpr (Nat.le_refl _)
    apply map_except_fixed_error
    · intro a _ e2 he2
      cases hga : translated_chunks.get? a with
      | some t2 =>
        rw [hga] at he2
        cases hgr2 : reflection_chunks.get? a with
        | some r2 => rw [hgr2] at he2; cases he2
        | none => rw [hgr2] at he2; cases he2; rfl
      | none => rw [hga] at he2; cases he2; rfl
    · refine ⟨reflection_chunks.length, hmem, ?_⟩
      rw [hgt, hgr]
      rfl

theorem next_stage_partial_raises_witness :
    reflect_bindings ["translation of chunk 0"] 2 = Except.error PyError.indexError ∧
    improve_bindings ["translation of chunk 0", "translation of chunk 1"]
      ["reflection on chunk 0"] 2 = Except.error PyError.indexError :=
  ⟨(next_stage_partial_raises ["translation of chunk 0"] [] 2).1 (by decide),
   (next_stage_partial_raises ["translation of chunk 0", "translation of chunk 1"]
      ["reflection on chunk 0"] 2).2 (by decide) (by decide)⟩

/-! ## Template engine (`prompts.py`)

`string.Formatter().parse` and `str.format` are modelled by a tokenizer that
splits a template string into literal and field tokens.  Escaped braces
(doubled) become literals; an unmatched single brace raises `ValueError` as
in CPython; a conversion (`!r`) or format spec (`:spec`) ends the field name
(format specs with nested braces are not modelled).  Template strings in the
repository use only plain named placeholders. -/

/-- The `{` character (written via its code point, it delimits fields). -/
def lbrace : Char := Char.ofNat 123

/-- The `}` character. -/
def rbrace : Char := Char.ofNat 125

/-- One element of `string.Formatter().parse`: a literal chunk or a named
replacement field. -/
inductive FmtTok where
  | lit (s : String)
  | field (name : String)
deriving DecidableEq, Repr

/-- Skip the remainder of a conversion/format spec up to the closing brace. -/
def drop_to_close : List Char → Except PyError (List Char)
  | [] => .error (.valueError "unmatched brace in format string")
  | c :: rest => if c = rbrace then .ok rest else drop_to_close rest

/-- Read a replacement-field name, stopping at the closing brace or at a
conversion/format-spec marker. -/
def read_field : List Char → List Char → Except PyError (String × List Char)
  | [], _ => .error (.valueError "expected closing brace before end of string")
  | c :: rest, acc =>
    if c = rbrace then .ok (String.mk acc.reverse, rest)
    else if c = ':' || c = '!' then do
      let rest2 ← drop_to_close rest
      .ok (String.mk acc.reverse, rest2)
    else read_field rest (c :: acc)

/-- Tokenize a format string.  The fuel argument is an upper bound on the
number of parsing steps; callers pass `length + 1`, which always suffices
because every step consumes at least one character. -/
def tokenize_fmt : Nat → List Char → Except PyError (List FmtTok)
  | 0, _ => .ok []
  | _ + 1, [] => .ok []
  | fuel + 1, c :: rest =>
    if c = lbrace then
      match rest with
      | [] => .error (.valueError "Single brace encountered in format string")
      | d :: rest2 =>
        if d = lbrace then do
          let ts ← tokenize_fmt fuel rest2
          .ok (.lit (String.mk [lbrace]) :: ts)
        else do
          let (name, rest3) ← read_field rest []
          let ts ← tokenize_fmt fuel rest3
          .ok (.field name :: ts)
    else if c = rbrace then
      match rest with
      | [] => .error (.valueError "Single brace encountered in format string")
      | d :: rest2 =>
        if d = rbrace then do
          let ts ← tokenize_fmt fuel rest2
          .ok (.lit (String.mk [rbrace]) :: ts)
        else .error (.valueError "Single brace encountered in format string")
    else do
      let ts ← tokenize_fmt fuel rest
      .ok (.lit (String.mk [c]) :: ts)

/-- `PromptTemplate.get_string_placeholders`: the tuple of field names that
`string.Formatter().parse` yields for a template string. -/
def get_string_placeholders (s : String) : Except PyError (List String) := do
  let toks ← tokenize_fmt (s.length + 1) s.data
  .ok (toks.filterMap fun t => match t with | .field n => some n | .lit _ => none)

/-- `str.format`: substitute every replacement field from the keyword
mapping, raising `KeyError` for an unbound field name. -/
def format_tokens (toks : List FmtTok) (kwargs : List (String × String)) :
    Except PyError String :=
  match toks with
  | [] => .ok ""
  | .lit s :: rest => do
    let tail ← format_tokens rest kwargs
    .ok (s ++ tail)
  | .field n :: rest =>
    match kwargs.lookup n with
    | some v => do
      let tail ← format_tokens rest kwargs
      .ok (v ++ tail)
    | none => .error (.keyError n)

/-- `to_format.format(**format_kwargs)`. -/
def py_format (s : String) (kwargs : List (String × String)) : Except PyError String := do
  let toks ← tokenize_fmt (s.length + 1) s.data
  format_tokens toks kwargs

/-- The set difference `str_set - kwargs_set` reported by
`placeholders_in_dict` when rendering fails: every placeholder of the
template that is absent from the bindings (as a deduplicated list, since
Python builds sets). -/
def missing_params (phs : List String) (kwargs : List (String × String)) : List String :=
  phs.dedup.filter fun p => !((kwargs.map Prod.fst).dedup.contains p)

/-- `PromptTemplate.placeholders_in_dict` (prompts.py lines 95-131): raises
`ValueError` listing the missing placeholders when the template's
placeholder set is not a subset of the binding keys; returns `False` (after
a non-fatal warning) when the bindings have extra keys; returns `True`
otherwise. -/
def placeholders_in_dict (s : String) (kwargs : List (String × String)) :
    Except PyError Bool := do
  let phs ← get_string_placeholders s
  if (missing_params phs kwargs).isEmpty then
    if ((kwargs.map Prod.fst).dedup.filter fun p => !(phs.dedup.contains p)).isEmpty then
      .ok true
    else .ok false
  else .error (.valueErrorMissingParams (missing_params phs kwargs))

/-- `PromptTemplate.get_formatted` (prompts.py lines 133-152): validate the
bindings against the template, then substitute. -/
def get_formatted (to_format : String) (format_kwargs : List (String × String)) :
    Except PyError String := do
  let _ ← placeholders_in_dict to_format format_kwargs
  py_format to_format format_kwargs


theorem ok_bind {ε α β : Type} (a : α) (f : α → Except ε β) :
    (Except.ok a >>= f : Except ε β) = f a := rfl

theorem error_bind {ε α β : Type} (e : ε) (f : α → Except ε β) :
    (Except.error e >>= f : Except ε β) = Except.error e := rfl

theorem lookup_of_mem_keys {n : String} {kwargs : List (String × String)}
    (h : n ∈ kwargs.map Prod.fst) : ∃ v, kwargs.lookup n = some v := by
  have hsome : (kwargs.lookup n).isSome = true := by
    rw [List.lookup_isSome_iff]
    rcases List.mem_map.mp h with ⟨p, hp, hfst⟩
    exact ⟨p, hp, by simp [hfst]⟩
  cases hv : kwargs.lookup n with
  | none => rw [hv] at hsome; cases hsome
  | some v => exact ⟨v, rfl⟩

theorem format_tokens_total {toks : List FmtTok} {kwargs : List (String × String)}
    (h : ∀ n, FmtTok.field n ∈ toks → n ∈ kwargs.map Prod.fst) :
    ∃ out, format_tokens toks kwargs = Except.ok out := by
  induction toks with
  | nil => exact ⟨"", rfl⟩
  | cons t rest ih =>
    rcases ih (fun n hn => h n (List.mem_cons_of_mem _ hn)) with ⟨out, hout⟩
    cases t with
    | lit s =>
      refine ⟨s ++ out, ?_⟩
      simp only [format_tokens, hout, ok_bind]
    | field n =>
      rcases lookup_of_mem_keys (h n (List.mem_cons_self _ _)) with ⟨v, hv⟩
      refine ⟨v ++ out, ?_⟩
      simp only [format_tokens, hv, hout, ok_bind]

theorem mem_missing_params {p : String} {phs : List String}
    {kwargs : List (String × String)} :
    p ∈ missing_params phs kwargs ↔ p ∈ phs ∧ p ∉ kwargs.map Prod.fst := by
  simp [missing_params, List.mem_filter, List.mem_dedup, List.contains]

/-- C5: for every template string (with well-formed replacement fields,
yielding placeholder list `phs`) and every bindings mapping, rendering via
`get_formatted` fails with an error carrying exactly the placeholders that
are present in the template but absent from the bindings whenever at least
one placeholder is unbound — no partially substituted string is returned —
and when every placeholder is bound it returns the fully substituted
string, with extra binding names only demoting `placeholders_in_dict` to a
non-fatal `False` (the warning path) rather than failing. -/
theorem get_formatted_all_or_nothing (s : String) (kwargs : List (String × String))
    (phs : List String) (hphs : get_string_placeholders s = Except.ok phs) :
    (missing_params phs kwargs ≠ [] →
      get_formatted s kwargs =
        Except.error (PyError.valueErrorMissingParams (missing_params phs kwargs))) ∧
    (∀ p, p ∈ missing_params phs kwargs ↔ p ∈ phs ∧ p ∉ kwargs.map Prod.fst) ∧
    (missing_params phs kwargs = [] →
      ∃ out, get_formatted s kwargs = Except.ok out ∧ py_format s kwargs = Except.ok out) ∧
    (missing_params phs kwargs = [] → (∃ q ∈ kwargs.map Prod.fst, q ∉ phs) →
      placeholders_in_dict s kwargs = Except.ok false) := by
  obtain ⟨toks, htoks, hfields⟩ :
      ∃ toks, tokenize_fmt (s.length + 1) s.data = Except.ok toks ∧
        phs = toks.filterMap fun t => match t with | .field n => some n | .lit _ => none := by
    unfold get_string_placeholders at hphs
    cases ht : tokenize_fmt (s.length + 1) s.data with
    | ok toks =>
      rw [ht, ok_bind] at hphs
      refine ⟨toks, rfl, ?_⟩
      cases hphs
      rfl
    | error e =>
      rw [ht, error_bind] at hphs
      cases hphs
  refine ⟨?_, fun p => mem_missing_params, ?_, ?_⟩
  · intro hne
    have hie : (missing_params phs kwargs).isEmpty = false := by
      cases hmp : missing_params phs kwargs with
      | nil => exact absurd hmp hne
      | cons a l => rfl
    unfold get_formatted placeholders_in_dict
    simp [hphs, ok_bind, error_bind, hne]
  · intro hemp
    have hbound : ∀ n, FmtTok.field n ∈ toks → n ∈ kwargs.map Prod.fst := by
      intro n hn
      by_contra hnot
      have hmem : n ∈ missing_params phs kwargs :=
        mem_missing_params.mpr ⟨by
          rw [hfields]
          exact List.mem_filterMap.mpr ⟨FmtTok.field n, hn, rfl⟩, hnot⟩
      rw [hemp] at hmem
      exact absurd hmem (List.not_mem_nil n)
    rcases format_tokens_total hbound with ⟨out, hout⟩
    have hpyf : py_format s kwargs = Except.ok out := by
      unfold py_format
      rw [htoks, ok_bind]
      exact hout
    refine ⟨out, ?_, hpyf⟩
    unfold get_formatted placeholders_in_dict
    simp [hphs, ok_bind, hemp, hpyf]
    split <;> rfl
  · intro hemp hextra
    rcases hextra with ⟨q, hq, hqn⟩
    have hfl : ((kwargs.map Prod.fst).dedup.filter fun p => !(phs.dedup.contains p)).isEmpty
        = false := by
      have hqmem : q ∈ (kwargs.map Prod.fst).dedup.filter fun p => !(phs.dedup.contains p) := by
        refine List.mem_filter.mpr ⟨List.mem_dedup.mpr hq, ?_⟩
        simp [List.contains, List.mem_dedup, hqn]
      cases hfl2 : (kwargs.map Prod.fst).dedup.filter fun p => !(phs.dedup.contains p) with
      | nil => rw [hfl2] at hqmem; exact absurd hqmem (List.not_mem_nil q)
      | cons a l => rfl
    unfold placeholders_in_dict
    simp [hphs, ok_bind, hemp, hfl]
    rcases List.mem_map.mp hq with ⟨p, hp, hfst⟩
    cases p with
    | mk a b =>
      subst hfst
      exact ⟨a, ⟨b, hp⟩, hqn⟩

theorem get_formatted_all_or_nothing_witness :
    get_formatted "\x7ba\x7d and \x7bb\x7d" [("a", "x"), ("c", "y")] =
      Except.error (PyError.valueErrorMissingParams
        (missing_params ["a", "b"] [("a", "x"), ("c", "y")])) :=
  (get_formatted_all_or_nothing "\x7ba\x7d and \x7bb\x7d" [("a", "x"), ("c", "y")]
    ["a", "b"] (by decide)).1 (by decide)

/-! ## `PromptTemplate.__init__` and `PromptConfig.__init__` (`prompts.py`) -/

/-- Tuple unpacking `k, v = key` applied to a string: iterating a Python
string yields its characters (as one-character strings), and unpacking
succeeds only when there are exactly two of them. -/
def py_unpack2 (s : String) : Except PyError (String × String) :=
  match s.data with
  | [] => .error (.valueError "not enough values to unpack (expected 2, got 0)")
  | [_] => .error (.valueError "not enough values to unpack (expected 2, got 1)")
  | [a, b] => .ok (String.mk [a], String.mk [b])
  | _ => .error (.valueError "too many values to unpack (expected 2)")

/-- The state a constructed `PromptTemplate` holds: the two template
strings, the placeholder tuples extracted from them at construction, and
the filtered default-keyword dictionaries. -/
structure PromptTemplate where
  prompt : String
  sysmsg : String
  prompt_placeholders : List String
  sysmsg_placeholders : List String
  prompt_kwargs : List (String × String)
  sysmsg_kwargs : List (String × String)
deriving DecidableEq, Repr

/-- The `prompt_placehodlers` property (the source spells it this way):
returns the placeholders extracted from the prompt string at construction. -/
def PromptTemplate.prompt_placehodlers (t : PromptTemplate) : List String :=
  t.prompt_placeholders

/-- `PromptTemplate.__init__` (prompts.py lines 39-77).  The constructor
iterates `for k, v in placeholder_kwargs` — over the dict itself, not over
`.items()` — so each *key* is tuple-unpacked; any key that is not a
two-character string raises `ValueError` before the template is built. -/
def PromptTemplate.init (prompt sysmsg : String)
    (placeholder_kwargs : List (String × String)) : Except PyError PromptTemplate := do
  let prompt_placeholders ← get_string_placeholders prompt
  let sysmsg_placeholders ← get_string_placeholders sysmsg
  let pairs ← map_except (fun kv => py_unpack2 kv.1) placeholder_kwargs
  .ok { prompt, sysmsg, prompt_placeholders, sysmsg_placeholders,
        prompt_kwargs := pairs.filter fun kv => prompt_placeholders.contains kv.1,
        sysmsg_kwargs := pairs.filter fun kv => sysmsg_placeholders.contains kv.1 }

/-- `PromptConfig.REQUIRED_PROMPT_PLACEHOLDERS` (prompts.py lines 230-245). -/
def REQUIRED_PROMPT_PLACEHOLDERS : List (String × List String) :=
  [("translation", ["source_lang", "target_lang", "source_chunk"]),
   ("reflection", ["source_lang", "target_lang", "source_chunk", "translated_chunk"]),
   ("improvement", ["source_lang", "target_lang", "source_chunk", "translated_chunk",
     "reflection_chunk"])]

/-- The state a constructed `PromptConfig` holds. -/
structure PromptConfig where
  translation_prompt : PromptTemplate
  reflection_prompt : PromptTemplate
  improvement_prompt : PromptTemplate
deriving DecidableEq, Repr

/-- `getattr(self, f"_\x7bprompt_type\x7d_prompt")`. -/
def PromptConfig.get_prompt (cfg : PromptConfig) : String → PromptTemplate
  | "reflection" => cfg.reflection_prompt
  | "improvement" => cfg.improvement_prompt
  | _ => cfg.translation_prompt

/-- The inner loop of `PromptConfig.__init__`: raise `ValueError` at the
first required placeholder missing from the prompt string's placeholders. -/
def check_required (prompt_type : String) (required_placeholders : List String)
    (t : PromptTemplate) : Except PyError Unit :=
  match required_placeholders.find? fun p => !(t.prompt_placehodlers.contains p) with
  | some p => .error (.valueError
      (prompt_type ++ " prompt must contain the placeholder " ++ p))
  | none => .ok ()

/-- The outer loop of `PromptConfig.__init__` over
`REQUIRED_PROMPT_PLACEHOLDERS.items()`. -/
def check_prompts (cfg : PromptConfig) :
    List (String × List String) → Except PyError Unit
  | [] => .ok ()
  | (prompt_type, required) :: rest => do
    let _ ← check_required prompt_type required (cfg.get_prompt prompt_type)
    check_prompts cfg rest

/-- `PromptConfig.__init__` (prompts.py lines 247-297): store the three
templates, then check every required placeholder of every role. -/
def PromptConfig.init (tranlsation_prompt reflection_prompt improvement_prompt :
    PromptTemplate) : Except PyError PromptConfig :=
  let cfg : PromptConfig :=
    { translation_prompt := tranlsation_prompt, reflection_prompt, improvement_prompt }
  match check_prompts cfg REQUIRED_PROMPT_PLACEHOLDERS with
  | .ok _ => .ok cfg
  | .error e => .error e

theorem check_required_ok (prompt_type : String) (required : List String)
    (t : PromptTemplate) :
    is_ok (check_required prompt_type required t) = true ↔
      ∀ p ∈ required, p ∈ t.prompt_placehodlers := by
  unfold check_required
  cases hf : required.find? fun p => !(t.prompt_placehodlers.contains p) with
  | some p =>
    simp only [is_ok]
    constructor
    · intro h; cases h
    · intro hall
      have hmem := List.find?_some hf
      have hp := List.mem_of_find?_eq_some hf
      simp [List.contains, hall p hp] at hmem
  | none =>
    simp only [is_ok, true_iff]
    intro p hp
    have := List.find?_eq_none.mp hf p hp
    simpa [List.contains] using this

/-- C4: constructing a `PromptConfig` from three templates succeeds exactly
when each template's prompt string contains every placeholder required for
its role (translation: `source_lang`, `target_lang`, `source_chunk`;
reflection additionally `translated_chunk`; improvement additionally
`reflection_chunk`); otherwise the constructor raises `ValueError` — so a
violated placeholder contract fails at construction time, before any unit
is dispatched. -/
theorem promptConfig_init_contract (tp rp ip : PromptTemplate) :
    is_ok (PromptConfig.init tp rp ip) = true ↔
      ((∀ p ∈ ["source_lang", "target_lang", "source_chunk"],
          p ∈ tp.prompt_placehodlers) ∧
       (∀ p ∈ ["source_lang", "target_lang", "source_chunk", "translated_chunk"],
          p ∈ rp.prompt_placehodlers) ∧
       (∀ p ∈ ["source_lang", "target_lang", "source_chunk", "translated_chunk",
          "reflection_chunk"], p ∈ ip.prompt_placehodlers)) := by
  have hget1 : (PromptConfig.mk tp rp ip).get_prompt "translation" = tp := rfl
  have hget2 : (PromptConfig.mk tp rp ip).get_prompt "reflection" = rp := rfl
  have hget3 : (PromptConfig.mk tp rp ip).get_prompt "improvement" = ip := rfl
  unfold PromptConfig.init
  simp only [REQUIRED_PROMPT_PLACEHOLDERS, check_prompts, hget1, hget2, hget3]
  cases h1 : check_required "translation" ["source_lang", "target_lang", "source_chunk"] tp with
  | error e1 =>
    have h1f : is_ok (check_required "translation"
        ["source_lang", "target_lang", "source_chunk"] tp) = false := by rw [h1]; rfl
    simp only [h1, error_bind, is_ok]
    constructor
    · intro h; cases h
    · intro hall
      have hko := (check_required_ok "translation"
        ["source_lang", "target_lang", "source_chunk"] tp).mpr hall.1
      rw [h1f] at hko
      cases hko
  | ok u1 =>
    cases h2 : check_required "reflection"
        ["source_lang", "target_lang", "source_chunk", "translated_chunk"] rp with
    | error e2 =>
      have h2f : is_ok (check_required "reflection"
          ["source_lang", "target_lang", "source_chunk", "translated_chunk"] rp) = false := by
        rw [h2]; rfl
      simp only [h1, h2, ok_bind, error_bind, is_ok]
      constructor
      · intro h; cases h
      · intro hall
        have hko := (check_required_ok "reflection"
          ["source_lang", "target_lang", "source_chunk", "translated_chunk"] rp).mpr hall.2.1
        rw [h2f] at hko
        cases hko
    | ok u2 =>
      cases h3 : check_required "improvement"
          ["source_lang", "target_lang", "source_chunk", "translated_chunk",
            "reflection_chunk"] ip with
      | error e3 =>
        have h3f : is_ok (check_required "improvement"
            ["source_lang", "target_lang", "source_chunk", "translated_chunk",
              "reflection_chunk"] ip) = false := by rw [h3]; rfl
        simp only [h1, h2, h3, ok_bind, error_bind, is_ok]
        constructor
        · intro h; cases h
        · intro hall
          have hko := (check_required_ok "improvement"
            ["source_lang", "target_lang", "source_chunk", "translated_chunk",
              "reflection_chunk"] ip).mpr hall.2.2
          rw [h3f] at hko
          cases hko
      | ok u3 =>
        simp only [h1, h2, h3, ok_bind, is_ok, true_iff]
        refine ⟨?_, ?_, ?_⟩
        · exact (check_required_ok "translation"
            ["source_lang", "target_lang", "source_chunk"] tp).mp (by rw [h1]; rfl)
        · exact (check_required_ok "reflection"
            ["source_lang", "target_lang", "source_chunk", "translated_chunk"] rp).mp
            (by rw [h2]; rfl)
        · exact (check_required_ok "improvement"
            ["source_lang", "target_lang", "source_chunk", "translated_chunk",
              "reflection_chunk"] ip).mp (by rw [h3]; rfl)

theorem map_except_is_ok {ε α β : Type} {f : α → Except ε β} :
    ∀ {l : List α}, is_ok (map_except f l) = true ↔ ∀ a ∈ l, is_ok (f a) = true := by
  intro l
  induction l with
  | nil => simp [map_except, is_ok]
  | cons a rest ih =>
    cases hfa : f a with
    | error e =>
      simp only [map_except, hfa, error_bind, is_ok]
      constructor
      · intro h; cases h
      · intro hall
        have := hall a (List.mem_cons_self _ _)
        rw [hfa] at this
        cases this
    | ok b =>
      cases hrest : map_except f rest with
      | error e =>
        simp only [map_except, hfa, hrest, ok_bind, error_bind, is_ok]
        constructor
        · intro h; cases h
        · intro hall
          have := ih.mpr fun x hx => hall x (List.mem_cons_of_mem _ hx)
          rw [hrest] at this
          cases this
      | ok bs =>
        simp only [map_except, hfa, hrest, ok_bind, is_ok, true_iff]
        intro x hx
        rcases List.mem_cons.mp hx with h1 | h2
        · subst h1; rw [hfa]
        · have := ih.mp (by rw [hrest]; rfl)
          exact this x h2

theorem py_unpack2_is_ok {s : String} : is_ok (py_unpack2 s) = true ↔ s.length = 2 := by
  cases s with
  | mk data =>
    match data with
    | [] => simp [py_unpack2, is_ok, String.length]
    | [a] => simp [py_unpack2, is_ok, String.length]
    | [a, b] => simp [py_unpack2, is_ok, String.length]
    | a :: b :: c :: rest =>
      simp [py_unpack2, is_ok, String.length]

/-- C9: for every `placeholder_kwargs` dictionary passed to the
`PromptTemplate` constructor (with well-formed template strings),
construction succeeds exactly when every key of the dictionary is a
sequence of exactly two elements — because `for k, v in placeholder_kwargs`
unpacks each *key* rather than each `(key, value)` pair — so any key that
is not a two-character string makes construction raise `ValueError`, and an
empty (or omitted) `placeholder_kwargs` is safe. -/
theorem promptTemplate_init_unpack (prompt sysmsg : String)
    (placeholder_kwargs : List (String × String))
    (hp : is_ok (get_string_placeholders prompt) = true)
    (hs : is_ok (get_string_placeholders sysmsg) = true) :
    is_ok (PromptTemplate.init prompt sysmsg placeholder_kwargs) = true ↔
      ∀ kv ∈ placeholder_kwargs, kv.1.length = 2 := by
  obtain ⟨pp, hpp⟩ : ∃ x, get_string_placeholders prompt = Except.ok x := by
    cases h : get_string_placeholders prompt with
    | ok x => exact ⟨x, rfl⟩
    | error e => rw [h] at hp; cases hp
  obtain ⟨sp, hsp⟩ : ∃ x, get_string_placeholders sysmsg = Except.ok x := by
    cases h : get_string_placeholders sysmsg with
    | ok x => exact ⟨x, rfl⟩
    | error e => rw [h] at hs; cases hs
  have hiter : is_ok (map_except (fun kv => py_unpack2 kv.1) placeholder_kwargs) = true ↔
      ∀ kv ∈ placeholder_kwargs, kv.1.length = 2 := by
    rw [map_except_is_ok]
    constructor
    · intro h kv hkv; exact py_unpack2_is_ok.mp (h kv hkv)
    · intro h kv hkv; exact py_unpack2_is_ok.mpr (h kv hkv)
  unfold PromptTemplate.init
  cases hm : map_except (fun kv => py_unpack2 kv.1) placeholder_kwargs with
  | ok pairs =>
    have hall : ∀ kv ∈ placeholder_kwargs, kv.1.length = 2 := hiter.mp (by rw [hm]; rfl)
    simp only [hpp, hsp, hm, ok_bind, is_ok, true_iff]
    exact hall
  | error e =>
    have hnall : ¬ ∀ kv ∈ placeholder_kwargs, kv.1.length = 2 := by
      intro hall
      have := hiter.mpr hall
      rw [hm] at this
      cases this
    simp only [hpp, hsp, hm, ok_bind, error_bind, is_ok]
    exact iff_of_false (by intro h; cases h) hnall

theorem promptTemplate_init_unpack_witness :
    is_ok (PromptTemplate.init "hello" "hi" [("ab", "v")]) = true ↔
      ∀ kv ∈ [("ab", "v")], kv.1.length = 2 :=
  promptTemplate_init_unpack "hello" "hi" [("ab", "v")] (by decide) (by decide)

/-! ## Agent buffer and orchestration (`agents.py`) -/

/-- The keys the `_buffer` dict accumulates during `agentic_translate`
(agents.py lines 203-244); a key that has not been written yet is `none`.
The buffer has no key recording failed unit indices — failures are only
printed by the stage methods. -/
structure RunBuffer where
  source_chunks : Option (List String) := none
  num_chunks : Option Nat := none
  translated_chunks : Option (List String) := none
  reflection_chunks : Option (List String) := none
  improved_chunks : Option (List String) := none
deriving DecidableEq, Repr

/-- Python truthiness of the buffer dict: `\x7b\x7d` is falsy. -/
def RunBuffer.isEmptyDict (b : RunBuffer) : Bool :=
  b.source_chunks.isNone && b.num_chunks.isNone && b.translated_chunks.isNone &&
    b.reflection_chunks.isNone && b.improved_chunks.isNone

/-- The `buffer` property (agents.py lines 149-152): `self._buffer or \x7b\x7d`. -/
def buffer (b : Option RunBuffer) : RunBuffer := b.getD {}

/-- `SimpleTranslationAgent.tag_chunk` (agents.py lines 97-113). -/
def tag_chunk (chunk : String) (tag : String) : String :=
  "<" ++ tag ++ ">" ++ chunk ++ "</" ++ tag ++ ">"

/-- `"".join(parts)`: concatenation with no separator. -/
def py_join : List String → String
  | [] => ""
  | s :: rest => s ++ py_join rest

theorem py_join_append (l1 l2 : List String) :
    py_join (l1 ++ l2) = py_join l1 ++ py_join l2 := by
  induction l1 with
  | nil => simp [py_join]
  | cons s rest ih =>
    simp only [List.cons_append, py_join, List.append_eq, ih, String.append_assoc]

theorem py_join_eq_foldl (l : List String) :
    py_join l = List.foldl (· ++ ·) "" l := by
  suffices h : ∀ (l : List String) (a : String), List.foldl (· ++ ·) a l = a ++ py_join l by
    rw [h l ""]
    exact (String.empty_append _).symm
  intro l
  induction l with
  | nil => intro a; simp [py_join]
  | cons s rest ih =>
    intro a
    simp only [List.foldl_cons, py_join, ih (a ++ s), String.append_assoc]

/-- `SimpleTranslationAgent.get_tagged_source_text` (agents.py lines
115-147): raise `ValueError` for a missing/empty buffer or missing
`source_chunks` key, otherwise return the chunk at `chunk_idx` together
with `"".join(chnks[:chunk_idx] + [tag_chunk(chnks[chunk_idx], tag)] +
chnks[chunk_idx + 1:])`. -/
def get_tagged_source_text (buf : Option RunBuffer) (source_text_tag : String)
    (chunk_idx : Nat) : Except PyError (String × String) :=
  match buf with
  | none => .error (.valueError "Buffer is empty. Run agentic_translate first.")
  | some b =>
    if b.isEmptyDict then
      .error (.valueError "Buffer is empty. Run agentic_translate first.")
    else
      match b.source_chunks with
      | none => .error (.valueError
          "Source chunks not found in buffer. Run agentic_translate first.")
      | some chnks =>
        match chnks.get? chunk_idx with
        | none => .error .indexError
        | some c =>
          .ok (c, py_join (chnks.take chunk_idx ++ [tag_chunk c source_text_tag] ++
            chnks.drop (chunk_idx + 1)))

/-- C10: for every buffer holding source chunks and every in-range
`chunk_idx`, `get_tagged_source_text` returns the pair of
`source_chunks[chunk_idx]` and the concatenation of all source chunks with
exactly the `chunk_idx`-th one wrapped in `<TAG>...</TAG>`; replacing the
tagged occurrence by the bare chunk (i.e. removing the single tag pair)
recovers exactly the concatenation of all source chunks. -/
theorem get_tagged_source_text_spec (b : RunBuffer) (chunks : List String)
    (tag : String) (idx : Nat) (hb : b.source_chunks = some chunks)
    (hidx : idx < chunks.length) :
    get_tagged_source_text (some b) tag idx =
      Except.ok (chunks.get ⟨idx, hidx⟩,
        py_join (chunks.take idx) ++ tag_chunk (chunks.get ⟨idx, hidx⟩) tag ++
          py_join (chunks.drop (idx + 1))) ∧
    py_join (chunks.take idx) ++ chunks.get ⟨idx, hidx⟩ ++
        py_join (chunks.drop (idx + 1)) = py_join chunks := by
  have hnonempty : b.isEmptyDict = false := by
    simp [RunBuffer.isEmptyDict, hb]
  constructor
  · simp only [get_tagged_source_text, hnonempty, Bool.false_eq_true, if_false, hb,
      List.get?_eq_get hidx]
    rw [py_join_append, py_join_append]
    simp [py_join, String.append_assoc]
  · conv_rhs => rw [← List.take_append_drop idx chunks]
    rw [List.drop_eq_getElem_cons hidx, py_join_append]
    simp only [py_join, List.get_eq_getElem, String.append_assoc]

theorem get_tagged_source_text_spec_witness :
    get_tagged_source_text
        (some { source_chunks := some ["Hello, ", "world.", "Bye."], num_chunks := some 3 })
        "TRANSLATE_THIS" 1 =
      Except.ok ((["Hello, ", "world.", "Bye."] : List String).get ⟨1, by decide⟩,
        py_join ((["Hello, ", "world.", "Bye."] : List String).take 1) ++
          tag_chunk ((["Hello, ", "world.", "Bye."] : List String).get ⟨1, by decide⟩)
            "TRANSLATE_THIS" ++
          py_join ((["Hello, ", "world.", "Bye."] : List String).drop 2)) ∧
    py_join ((["Hello, ", "world.", "Bye."] : List String).take 1) ++
        (["Hello, ", "world.", "Bye."] : List String).get ⟨1, by decide⟩ ++
        py_join ((["Hello, ", "world.", "Bye."] : List String).drop 2) =
      py_join ["Hello, ", "world.", "Bye."] :=
  get_tagged_source_text_spec
    { source_chunks := some ["Hello, ", "world.", "Bye."], num_chunks := some 3 }
    ["Hello, ", "world.", "Bye."] "TRANSLATE_THIS" 1 rfl (by decide)

/-- `SimpleTranslationAgent.agentic_translate` (agents.py lines 189-244):
split the source text, record the chunks and their count, run the three
stage methods in sequence while writing each stage's output into the
buffer, join the improved chunks with no separator, and — with the default
`clear_buffer=True` — reset the buffer to `None` before returning.  The
three stage methods are abstracted as functions of the buffer entries they
read. -/
def agentic_translate (split_text : String → List String)
    (translate_stage : List String → List String)
    (reflect_stage : List String → List String → List String)
    (improve_stage : List String → List String → List String → List String)
    (source_text : String) (clear_buffer : Bool) : String × Option RunBuffer :=
  let source_chunks := split_text source_text
  let b1 : RunBuffer := { source_chunks := some source_chunks,
                          num_chunks := some source_chunks.length }
  let translated := translate_stage source_chunks
  let b2 : RunBuffer := { b1 with translated_chunks := some translated }
  let reflection := reflect_stage source_chunks translated
  let b3 : RunBuffer := { b2 with reflection_chunks := some reflection }
  let improved := improve_stage source_chunks translated reflection
  let b4 : RunBuffer := { b3 with improved_chunks := some improved }
  (py_join improved, if clear_buffer then none else some b4)

/-- C6: a completed `agentic_translate` run returns exactly the
concatenation, in chunk-index order and with no added separator, of the
improvement-stage per-unit outputs; in particular a final-stage output
`["Bonjour, ", "monde."]` is reassembled to `"Bonjour, monde."`. -/
theorem agentic_translate_reassembly (split_text : String → List String)
    (translate_stage : List String → List String)
    (reflect_stage : List String → List String → List String)
    (improve_stage : List String → List String → List String → List String)
    (source_text : String) (clear_buffer : Bool) :
    (agentic_translate split_text translate_stage reflect_stage improve_stage
        source_text clear_buffer).1 =
      List.foldl (· ++ ·) ""
        (improve_stage (split_text source_text)
          (translate_stage (split_text source_text))
          (reflect_stage (split_text source_text)
            (translate_stage (split_text source_text)))) ∧
    (agentic_translate (fun s => [s]) (fun l => l) (fun _ t => t)
        (fun _ _ _ => ["Bonjour, ", "monde."]) "Hello, world." true).1 =
      "Bonjour, monde." := by
  constructor
  · unfold agentic_translate
    rw [← py_join_eq_foldl]
  · rfl

/-- C8 counterexample: after a completed `agentic_translate` call with the
default `clear_buffer=True`, the buffer property returns the empty dict —
it exposes no per-stage outputs for that run (and the buffer never holds a
list of failed unit indices: `RunBuffer` has no such key). -/
theorem buffer_cleared_counterexample :
    (agentic_translate (fun s => [s]) (fun l => l) (fun _ t => t) (fun _ _ t => t)
        "Hello, world." true).2 = none ∧
    buffer ((agentic_translate (fun s => [s]) (fun l => l) (fun _ t => t) (fun _ _ t => t)
        "Hello, world." true).2) = ({} : RunBuffer) ∧
    (buffer ((agentic_translate (fun s => [s]) (fun l => l) (fun _ t => t)
        (fun _ _ t => t) "Hello, world." true).2)).improved_chunks = none ∧
    (buffer ((agentic_translate (fun s => [s]) (fun l => l) (fun _ t => t)
        (fun _ _ t => t) "Hello, world." true).2)).source_chunks = none :=
  ⟨rfl, rfl, rfl, rfl⟩

/-- `agentic_translate` with the possibility that a stage method raises
made explicit (as `reflect`/`improve` do when a prior stage is partial —
see `next_stage_partial_raises`): each stage is `Except`-valued.  When a
stage raises, the exception propagates out of `agentic_translate` before
the final join and before `self._buffer = None` is reached — that reset
runs only on successful completion (agents.py lines 239-244) — so the
buffer keeps the partially populated state it had when the stage raised,
whatever `clear_buffer` was passed. -/
def agentic_translate_fallible (split_text : String → List String)
    (translate_stage : List String → Except PyError (List String))
    (reflect_stage : List String → List String → Except PyError (List String))
    (improve_stage : List String → List String → List String →
      Except PyError (List String))
    (source_text : String) (clear_buffer : Bool) :
    Except PyError String × Option RunBuffer :=
  let source_chunks := split_text source_text
  let b1 : RunBuffer := { source_chunks := some source_chunks,
                          num_chunks := some source_chunks.length }
  match translate_stage source_chunks with
  | .error e => (.error e, some b1)
  | .ok translated =>
    let b2 : RunBuffer := { b1 with translated_chunks := some translated }
    match reflect_stage source_chunks translated with
    | .error e => (.error e, some b2)
    | .ok reflection =>
      let b3 : RunBuffer := { b2 with reflection_chunks := some reflection }
      match improve_stage source_chunks translated reflection with
      | .error e => (.error e, some b3)
      | .ok improved =>
        let b4 : RunBuffer := { b3 with improved_chunks := some improved }
        (.ok (py_join improved), if clear_buffer then none else some b4)

/-- When every stage succeeds, the fallible orchestration agrees with
`agentic_translate`. -/
theorem agentic_translate_fallible_agrees (split_text : String → List String)
    (translate_stage : List String → List String)
    (reflect_stage : List String → List String → List String)
    (improve_stage : List String → List String → List String → List String)
    (source_text : String) (clear_buffer : Bool) :
    agentic_translate_fallible split_text
        (fun c => Except.ok (translate_stage c))
        (fun c t => Except.ok (reflect_stage c t))
        (fun c t r => Except.ok (improve_stage c t r)) source_text clear_buffer =
      (Except.ok (agentic_translate split_text translate_stage reflect_stage
          improve_stage source_text clear_buffer).1,
       (agentic_translate split_text translate_stage reflect_stage improve_stage
          source_text clear_buffer).2) := rfl

/-- C8 (amended): the buffer property exposes the run's state in two
situations: after a run completed with `clear_buffer=False` (all per-stage
per-unit outputs plus the chunk count), and after any run in which a stage
raised mid-run — the exception propagates before `self._buffer = None` is
reached, so the partially populated state (every stage output produced
before the raise) is retained and exposed whatever `clear_buffer` was.
Only a successfully completed run with the default `clear_buffer=True`
resets the buffer, making the property return the empty dict.  In no case
does the buffer expose a list of failed unit indices: `RunBuffer` has no
such key; the stage methods only print them. -/
theorem buffer_exposes_run_state (split_text : String → List String)
    (translate_stage : List String → Except PyError (List String))
    (reflect_stage : List String → List String → Except PyError (List String))
    (improve_stage : List String → List String → List String →
      Except PyError (List String))
    (source_text : String) (clear_buffer : Bool) :
    (∀ translated reflection improved,
      translate_stage (split_text source_text) = Except.ok translated →
      reflect_stage (split_text source_text) translated = Except.ok reflection →
      improve_stage (split_text source_text) translated reflection =
        Except.ok improved →
      buffer ((agentic_translate_fallible split_text translate_stage reflect_stage
          improve_stage source_text false).2) =
        { source_chunks := some (split_text source_text),
          num_chunks := some (split_text source_text).length,
          translated_chunks := some translated,
          reflection_chunks := some reflection,
          improved_chunks := some improved } ∧
      buffer ((agentic_translate_fallible split_text translate_stage reflect_stage
          improve_stage source_text true).2) = ({} : RunBuffer)) ∧
    (∀ e, translate_stage (split_text source_text) = Except.error e →
      buffer ((agentic_translate_fallible split_text translate_stage reflect_stage
          improve_stage source_text clear_buffer).2) =
        { source_chunks := some (split_text source_text),
          num_chunks := some (split_text source_text).length }) ∧
    (∀ translated e,
      translate_stage (split_text source_text) = Except.ok translated →
      reflect_stage (split_text source_text) translated = Except.error e →
      buffer ((agentic_translate_fallible split_text translate_stage reflect_stage
          improve_stage source_text clear_buffer).2) =
        { source_chunks := some (split_text source_text),
          num_chunks := some (split_text source_text).length,
          translated_chunks := some translated }) ∧
    (∀ translated reflection e,
      translate_stage (split_text source_text) = Except.ok translated →
      reflect_stage (split_text source_text) translated = Except.ok reflection →
      improve_stage (split_text source_text) translated reflection =
        Except.error e →
      buffer ((agentic_translate_fallible split_text translate_stage reflect_stage
          improve_stage source_text clear_buffer).2) =
        { source_chunks := some (split_text source_text),
          num_chunks := some (split_text source_text).length,
          translated_chunks := some translated,
          reflection_chunks := some reflection }) := by
  refine ⟨?_, ?_, ?_, ?_⟩
  · intro translated reflection improved ht hr hi
    constructor
    · simp only [agentic_translate_fallible, ht, hr, hi]
      rfl
    · simp only [agentic_translate_fallible, ht, hr, hi]
      rfl
  · intro e ht
    simp only [agentic_translate_fallible, ht]
    rfl
  · intro translated e ht hr
    simp only [agentic_translate_fallible, ht, hr]
    rfl
  · intro translated reflection e ht hr hi
    simp only [agentic_translate_fallible, ht, hr, hi]
    rfl

theorem buffer_exposes_run_state_witness :
    buffer ((agentic_translate_fallible (fun s => [s])
        (fun c => Except.ok c)
        (fun _ _ => Except.error PyError.indexError)
        (fun _ _ r => Except.ok r) "Hello, world." true).2) =
      { source_chunks := some ["Hello, world."],
        num_chunks := some (["Hello, world."] : List String).length,
        translated_chunks := some ["Hello, world."] } :=
  (buffer_exposes_run_state (fun s => [s]) (fun c => Except.ok c)
      (fun _ _ => Except.error PyError.indexError) (fun _ _ r => Except.ok r)
      "Hello, world." true).2.2.1 ["Hello, world."] PyError.indexError rfl rfl

/-! ## Text splitters (`splitters.py`) -/

/-- Python `str.split(sep)` for a single-character separator: split on every
occurrence, keeping empty pieces, so the result always has
`count(sep) + 1` elements. -/
def split_chars (sep : Char) : List Char → List (List Char)
  | [] => [[]]
  | c :: rest =>
    let r := split_chars sep rest
    if c = sep then [] :: r
    else
      match r with
      | [] => [[c]]
      | h :: t => (c :: h) :: t

/-- `NewLineSplitter.split_text` (splitters.py lines 43-48):
`text.split("\n")`. -/
def NewLineSplitter.split_text (text : String) : List String :=
  (split_chars (Char.ofNat 10) text.data).map String.mk

/-- `SentenceSplitter.split_text` (splitters.py lines 51-64):
`text.split(".")`. -/
def SentenceSplitter.split_text (text : String) : List String :=
  (split_chars (Char.ofNat 46) text.data).map String.mk

/-- Python `range(0, stop, step)` for a positive step. -/
def py_range_pos (stop step : Nat) : List Nat :=
  (List.range ((stop + step - 1) / step)).map fun k => k * step

/-- Python slice `text[i:j]` for `0 ≤ i ≤ j`. -/
def py_slice (s : List Char) (i j : Nat) : List Char := (s.drop i).take (j - i)

/-- `UniformTextSplitter.split_text` (splitters.py lines 30-40):
`chunk_size = len(text) // self.num_chunks`, then
`[text[i : i + chunk_size] for i in range(0, len(text), chunk_size)]`.
`num_chunks = 0` raises `ZeroDivisionError`; a zero `chunk_size` (text
shorter than `num_chunks`) makes `range` raise
`ValueError: range() arg 3 must not be zero`. -/
def UniformTextSplitter.split_text (num_chunks : Nat) (text : String) :
    Except PyError (List String) :=
  if num_chunks = 0 then .error PyError.zeroDivisionError
  else
    let chunk_size := text.length / num_chunks
    if chunk_size = 0 then
      .error (.valueError "range() arg 3 must not be zero")
    else
      .ok ((py_range_pos text.length chunk_size).map fun i =>
        String.mk (py_slice text.data i (i + chunk_size)))

theorem split_chars_ne_nil (sep : Char) (l : List Char) : split_chars sep l ≠ [] := by
  cases l with
  | nil => simp [split_chars]
  | cons c rest =>
    simp only [split_chars]
    by_cases hc : c = sep
    · simp [hc]
    · cases hr : split_chars sep rest <;> simp [hc, hr]

/-- C7 counterexample: `UniformTextSplitter(num_chunks=2)` applied to the
non-empty text `"a"` does not return at least one element — it raises
`ValueError` (`len("a") // 2 == 0`, and `range` rejects a zero step). -/
theorem uniform_splitter_counterexample :
    UniformTextSplitter.split_text 2 "a" =
      Except.error (PyError.valueError "range() arg 3 must not be zero") := by
  decide

/-- C7 (amended): `NewLineSplitter.split_text` and
`SentenceSplitter.split_text` are pure functions returning at least one
element for every input; `UniformTextSplitter.split_text` returns at least
one element whenever `1 ≤ num_chunks ≤ len(text)`, but raises
`ValueError` for non-empty text shorter than `num_chunks` (zero chunk
size) and `ZeroDivisionError` for `num_chunks = 0`.  Determinism is
inherent: each splitter is modelled as a function of the input text
alone. -/
theorem splitters_return_nonempty (text : String) (num_chunks : Nat)
    (h1 : 1 ≤ num_chunks) (h2 : num_chunks ≤ text.length) :
    1 ≤ (NewLineSplitter.split_text text).length ∧
    1 ≤ (SentenceSplitter.split_text text).length ∧
    ∃ chunks, UniformTextSplitter.split_text num_chunks text = Except.ok chunks ∧
      1 ≤ chunks.length := by
  refine ⟨?_, ?_, ?_⟩
  · unfold NewLineSplitter.split_text
    rw [List.length_map]
    exact List.length_pos.mpr (split_chars_ne_nil _ _)
  · unfold SentenceSplitter.split_text
    rw [List.length_map]
    exact List.length_pos.mpr (split_chars_ne_nil _ _)
  · have hnum : ¬ num_chunks = 0 := by omega
    have hcs : 1 ≤ text.length / num_chunks := (Nat.one_le_div_iff (by omega)).mpr h2
    have hcsne : ¬ text.length / num_chunks = 0 := by omega
    simp only [UniformTextSplitter.split_text, hnum, if_false, hcsne]
    refine ⟨_, rfl, ?_⟩
    rw [List.length_map]
    unfold py_range_pos
    rw [List.length_map, List.length_range]
    have hlen : 1 ≤ text.length := le_trans h1 h2
    exact (Nat.one_le_div_iff (by omega)).mpr (by omega)

theorem splitters_return_nonempty_witness :
    1 ≤ (NewLineSplitter.split_text "ab\ncd").length ∧
    1 ≤ (SentenceSplitter.split_text "ab\ncd").length ∧
    ∃ chunks, UniformTextSplitter.split_text 2 "ab\ncd" = Except.ok chunks ∧
      1 ≤ chunks.length :=
  splitters_return_nonempty "ab\ncd" 2 (by decide) (by decide)
